import Mathlib

/-!
Verification development for the Bilibili-Down repository.

The repository ships a promotional website (React/TSX, under `src/website`
and the unnamed TSX pages) and documents a Rust download-orchestration
engine (resolver, signature signer, QR-login session manager, stream
catalog, task engine, queue scheduler).  The website code is embedded
directly from the TSX sources; the engine components, whose sources are
not part of this file set, are modelled from the specification text and
are marked as such in their doc comments.
-/

namespace BiliDown

/-! ### Homepage quality table (from the Home page TSX source) -/

/-- One entry of the homepage `videoQualities` table: the displayed quality
label, its description, and whether the tier requires login. -/
structure QualityEntry where
  quality : String
  description : String
  needLogin : Bool
deriving DecidableEq, Repr

/-- The `videoQualities` constant of the Home page, transcribed verbatim. -/
def videoQualities : List QualityEntry :=
  [ ⟨"8K", "超高清", true⟩
  , ⟨"4K", "超清", true⟩
  , ⟨"1080P 60帧", "高帧率", true⟩
  , ⟨"1080P+", "高码率", true⟩
  , ⟨"1080P", "高清", true⟩
  , ⟨"720P", "高清", true⟩
  , ⟨"480P", "清晰", false⟩
  , ⟨"360P", "流畅", false⟩ ]

/-- Modelled from the spec: the quality tier ordinal ("quality tier
(ordinal, e.g. 360p…8K)", spec §3); assigns each displayed quality label
its rank, higher tier gets the larger ordinal. -/
def qualityRank : String → Nat
  | "8K" => 8
  | "4K" => 7
  | "1080P 60帧" => 6
  | "1080P+" => 5
  | "1080P" => 4
  | "720P" => 3
  | "480P" => 2
  | "360P" => 1
  | _ => 0

/-! ### Theme provider (from `src/website/components/theme-provider.tsx`) -/

/-- The three theme values of the `Theme` union type. -/
inductive Theme
  | light
  | dark
  | system
deriving DecidableEq, Repr

/-- The string form of a theme value, as stored in `localStorage`. -/
def themeStr : Theme → String
  | Theme.light => "light"
  | Theme.dark => "dark"
  | Theme.system => "system"

/-- A model of the browser `localStorage`: a list of key/value pairs, the
first binding of a key being the visible one. -/
abbrev Store := List (String × String)

/-- Model of `localStorage.getItem`. -/
def getItem (s : Store) (k : String) : Option String :=
  (s.find? (fun p => p.1 == k)).map (fun p => p.2)

/-- Model of `localStorage.removeItem`: drop every binding of the key. -/
def removeItem (s : Store) (k : String) : Store :=
  s.filter (fun p => !(p.1 == k))

/-- Model of `localStorage.setItem`: the new binding shadows any old one. -/
def setItem (s : Store) (k v : String) : Store :=
  (k, v) :: removeItem s k

/-- The persistence effect of `ThemeProvider.setTheme` (theme-provider.tsx
lines 64-77): a non-`system` theme is written under the storage key, while
`system` removes the stored entry. -/
def setThemePersist (key : String) (s : Store) (t : Theme) : Store :=
  if t ≠ Theme.system then setItem s key (themeStr t)
  else removeItem s key

/-- The initial theme computation of `ThemeProvider` (lines 33-35):
`localStorage.getItem(storageKey) || defaultTheme` — a missing entry, and
also the JavaScript-falsy empty string, fall back to the default theme. -/
def initTheme (key defaultTheme : String) (s : Store) : String :=
  match getItem s key with
  | some v => if v = "" then defaultTheme else v
  | none => defaultTheme

/-- The data fields of the `ThemeProviderState` context value (the
`setTheme` callback field carries no state and is omitted). -/
structure ThemeCtxState where
  theme : String
  actualTheme : String
deriving DecidableEq, Repr

/-- The `initialState` default value the context is created with. -/
def initialState : ThemeCtxState := ⟨"system", "light"⟩

/-- React context resolution for `ThemeProviderContext`: inside a provider
`useContext` yields the provider's value, otherwise the default value the
context was created with (`initialState`); `none` stands for the
JavaScript `undefined`. -/
def readThemeContext (providerValue : Option ThemeCtxState) :
    Option ThemeCtxState :=
  match providerValue with
  | some v => some v
  | none => some initialState

/-- The error thrown by `useTheme` when the context value is undefined. -/
inductive UseThemeError
  | notInProvider
deriving DecidableEq, Repr

/-- The body of `useTheme` (theme-provider.tsx lines 86-92): throw if the
context value is `undefined`, return it otherwise. -/
def useTheme (ctx : Option ThemeCtxState) : Except UseThemeError ThemeCtxState :=
  match ctx with
  | none => Except.error UseThemeError.notInProvider
  | some v => Except.ok v

/-! ### Session Manager: QR-login state machine
Modelled from the spec (§4.3): the engine's Rust sources are not part of
this file set, so the state machine is embedded from the specification
text. -/

/-- Modelled from the spec: the QR-login states of §4.3 (`Idle`,
`QrIssued`, `Scanned`, `Confirmed`, `Expired`). -/
inductive QrState
  | Idle
  | QrIssued
  | Scanned
  | Confirmed
  | Expired
deriving DecidableEq, Repr

/-- Modelled from the spec: the four possible QR poll responses; the
`confirmed` response carries the session credentials and their expiry. -/
inductive PollResp
  | pending
  | scanned
  | confirmed (credentials : String) (expiry : Nat)
  | expired
deriving DecidableEq, Repr

/-- Modelled from the spec: a stored session credential bundle with its
expiry instant. -/
structure SessionCred where
  credentials : String
  expiry : Nat
deriving DecidableEq, Repr

/-- Modelled from the spec: the Session Manager's login machine — current
QR state, whether the poll timer is active, and the stored session. -/
structure LoginMachine where
  state : QrState
  pollingActive : Bool
  session : Option SessionCred
deriving DecidableEq, Repr

/-- The two terminal states of the QR-login machine. -/
def isTerminal : QrState → Bool
  | QrState.Confirmed => true
  | QrState.Expired => true
  | _ => false

/-- Modelled from the spec: the effect of one delivered poll response
(§4.3). In `QrIssued`/`Scanned` the response maps to the next state;
entering `Confirmed` stores the credentials and stops polling, entering
`Expired` stops polling; in a terminal state a poll is a no-op. -/
def applyPoll (m : LoginMachine) (r : PollResp) : LoginMachine :=
  match m.state with
  | QrState.Idle => m
  | QrState.Confirmed => m
  | QrState.Expired => m
  | QrState.QrIssued =>
      match r with
      | PollResp.pending => m
      | PollResp.scanned => { m with state := QrState.Scanned }
      | PollResp.confirmed c e =>
          { state := QrState.Confirmed, pollingActive := false,
            session := some ⟨c, e⟩ }
      | PollResp.expired =>
          { m with state := QrState.Expired, pollingActive := false }
  | QrState.Scanned =>
      match r with
      | PollResp.pending => m
      | PollResp.scanned => m
      | PollResp.confirmed c e =>
          { state := QrState.Confirmed, pollingActive := false,
            session := some ⟨c, e⟩ }
      | PollResp.expired =>
          { m with state := QrState.Expired, pollingActive := false }

/-- Modelled from the spec: the events driving the login machine — login
start (issues a QR payload and starts the poll timer), explicit
cancellation (stops the poll timer), and a delivered poll response. -/
inductive LoginEvent
  | start
  | cancel
  | poll (r : PollResp)
deriving DecidableEq, Repr

/-- Modelled from the spec: one step of the login machine. -/
def loginStep (m : LoginMachine) : LoginEvent → LoginMachine
  | LoginEvent.start =>
      match m.state with
      | QrState.Idle => { m with state := QrState.QrIssued, pollingActive := true }
      | _ => m
  | LoginEvent.cancel => { m with pollingActive := false }
  | LoginEvent.poll r => applyPoll m r

/-- The initial login machine: idle, not polling, no session. -/
def loginInit : LoginMachine := ⟨QrState.Idle, false, none⟩

/-- Running a sequence of login events from the initial machine. -/
def runLogin (evs : List LoginEvent) : LoginMachine :=
  evs.foldl loginStep loginInit

/-! ### Identifier Resolver
Modelled from the spec (§4.1): the engine's Rust resolver is not under
src/, so its behaviour is embedded from the specification text. -/

/-- The resolver's failure value. -/
inductive ResolveError
  | InvalidReference
deriving DecidableEq, Repr

/-- Modelled from the spec: the canonical-ID pattern — a "BV"-prefixed
identifier followed by ten alphanumeric characters (the BV code form the
repository's usage guide accepts). -/
def isCanonicalList : List Char → Bool
  | 'B' :: 'V' :: rest => rest.length == 10 && rest.all Char.isAlphanum
  | _ => false

/-- String form of the canonical-ID pattern test. -/
def isCanonicalId (s : String) : Bool := isCanonicalList s.data

/-- Scan a character list for the first window matching the canonical-ID
pattern. -/
def findIdAux : List Char → Option (List Char)
  | [] => none
  | c :: cs =>
      if isCanonicalList ((c :: cs).take 12) then some ((c :: cs).take 12)
      else findIdAux cs

/-- Modelled from the spec: extraction of a canonical ID embedded in a
full URL. -/
def extractId (s : String) : Option String :=
  (findIdAux s.data).map List.asString

/-- Character-list prefix test (an executable model of
`String.startsWith`). -/
def listStartsWith : List Char → List Char → Bool
  | _, [] => true
  | [], _ :: _ => false
  | c :: cs, p :: ps => c == p && listStartsWith cs ps

/-- Modelled from the spec: recognition of the known short-link domain. -/
def isShortLink (s : String) : Bool :=
  listStartsWith s.data "https://b23.tv/".data
    || listStartsWith s.data "http://b23.tv/".data
    || listStartsWith s.data "b23.tv/".data

/-- Modelled from the spec: the resolver (§4.1) with an explicit redirect
oracle and a hop bound. A canonical ID is returned directly; a full URL
containing one has it extracted; a short link is redirect-resolved once
and the result re-examined; everything else is `InvalidReference`. -/
def resolveAux (redirect : String → Option String) :
    Nat → String → Except ResolveError String
  | hops, input =>
    if isCanonicalId input then Except.ok input
    else
      match extractId input with
      | some id => Except.ok id
      | none =>
          if isShortLink input then
            match hops with
            | 0 => Except.error ResolveError.InvalidReference
            | Nat.succ h =>
                match redirect input with
                | some loc => resolveAux redirect h loc
                | none => Except.error ResolveError.InvalidReference
          else Except.error ResolveError.InvalidReference

/-- Modelled from the spec: the resolver entry point, bounded to one
redirect hop. -/
def resolve (redirect : String → Option String) (input : String) :
    Except ResolveError String :=
  resolveAux redirect 1 input

/-- A concrete redirect oracle for the worked example: the short link
redirects to the full video URL. -/
def demoRedirect : String → Option String := fun s =>
  if s = "https://b23.tv/abc123"
  then some "https://www.bilibili.com/video/BV1xx411c7mD"
  else none

/-! ### Signature Signer
Modelled from the spec (§4.2): the engine's Rust signer is not under
src/, so the signing algorithm is embedded from the specification text:
strip disallowed characters from values, sort parameters by key, append
the Unix timestamp parameter, concatenate with the mixed key material,
and hash the result. -/

/-- Modelled from the spec: the characters stripped from parameter values
("strip characters outside an allowed set from values"); the classic
URL-unsafe set excluded by the scheme. Code 39 is the apostrophe. -/
def isDisallowedChar (c : Char) : Bool :=
  c == '!' || c.toNat == 39 || c == '(' || c == ')' || c == '*'

/-- Strip disallowed characters from a parameter value. -/
def sanitizeValue (v : String) : String :=
  (v.data.filter (fun c => !(isDisallowedChar c))).asString

/-- Lexicographic comparison of character lists. -/
def listLe : List Char → List Char → Bool
  | [], _ => true
  | _ :: _, [] => false
  | a :: as, b :: bs => if a == b then listLe as bs else Nat.blt a.toNat b.toNat

/-- Key order used to sort query parameters. -/
def keyLe (a b : String) : Bool := listLe a.data b.data

/-- Insert a parameter into a key-sorted parameter list. -/
def insertParam (p : String × String) :
    List (String × String) → List (String × String)
  | [] => [p]
  | q :: qs => if keyLe p.1 q.1 then p :: q :: qs else q :: insertParam p qs

/-- Sort query parameters by key (insertion sort). -/
def sortParams : List (String × String) → List (String × String)
  | [] => []
  | p :: ps => insertParam p (sortParams ps)

/-- Encode a parameter list as a query string with sanitised values. -/
def encodeParams : List (String × String) → String
  | [] => ""
  | [(k, v)] => k ++ "=" ++ sanitizeValue v
  | (k, v) :: ps => k ++ "=" ++ sanitizeValue v ++ "&" ++ encodeParams ps

/-- Modelled from the spec: the cached pair of mixin key fragments. -/
structure MixinKey where
  fragA : String
  fragB : String
deriving DecidableEq, Repr

/-- The mixed key material obtained from the two fragments. -/
def mixKey (k : MixinKey) : String := k.fragA ++ k.fragB

/-- The canonical pre-hash string of a signing run: sanitised sorted
parameters, the appended `wts` timestamp parameter, and the mixed key
material. -/
def canonicalQuery (ps : List (String × String)) (key : MixinKey)
    (ts : Nat) : String :=
  encodeParams (sortParams ps ++ [("wts", toString ts)]) ++ mixKey key

/-- Bijective base-1114112 value of a character list (1114112 is the
number of Unicode code points, so each character is one digit). -/
def charListVal : List Char → Nat
  | [] => 0
  | c :: cs => (c.toNat + 1) + 1114112 * charListVal cs

/-- Modelled from the spec: "hash the result to produce a signature
value" — the digest of the canonical string, modelled as its bijective
base-1114112 numeral so that the digest determines the string. -/
def hashString (s : String) : Nat := charListVal s.data

/-- The signature of a signing run: the digest of the canonical string. -/
def wbiSign (ps : List (String × String)) (key : MixinKey) (ts : Nat) : Nat :=
  hashString (canonicalQuery ps key ts)

/-! ### Stream Catalog
Modelled from the spec (§4.5, §9): the engine's Rust catalog is not under
src/, so selection is embedded from the specification text — exact tier
match among the descriptors satisfying the session constraint, otherwise
(when the caller's policy accepts a fallback) the closest tier at or
below the request, otherwise `QualityUnavailable`. -/

/-- Modelled from the spec: a stream descriptor (§3). -/
structure StreamDescriptor where
  tier : Nat
  codec : String
  urls : List String
  requiresSession : Bool
  bitrate : Nat
deriving DecidableEq, Repr

/-- The Stream Catalog's failure value. -/
inductive CatalogError
  | QualityUnavailable
deriving DecidableEq, Repr

/-- The session constraint of a descriptor: a tier requiring a session is
only usable when a valid session is present. -/
def sessionOk (hasSession : Bool) (d : StreamDescriptor) : Bool :=
  !d.requiresSession || hasSession

/-- The descriptor with the highest tier at or below the requested tier,
if any. -/
def bestAtOrBelow (t : Nat) : List StreamDescriptor → Option StreamDescriptor
  | [] => none
  | d :: ds =>
      let rest := bestAtOrBelow t ds
      if d.tier ≤ t then
        match rest with
        | none => some d
        | some b => if b.tier < d.tier then some d else some b
      else rest

/-- Modelled from the spec: one network call of the stream-acquisition
pipeline — the descriptor retrieval for a part, or a stream request for a
tier. -/
inductive NetCall
  | descriptorRetrieval (part : Nat)
  | streamRequest (tier : Nat)
deriving DecidableEq, Repr

/-- Modelled from the spec: Stream Catalog selection (§4.5). The
`allowFallback` flag is the caller's fallback policy, an explicit
configuration value per the design notes (§9). -/
def selectStream (allowFallback hasSession : Bool)
    (descs : List StreamDescriptor) (t : Nat) :
    Except CatalogError StreamDescriptor :=
  let eligible := descs.filter (sessionOk hasSession)
  match eligible.find? (fun d => d.tier == t) with
  | some d => Except.ok d
  | none =>
      if allowFallback then
        match bestAtOrBelow t eligible with
        | some d => Except.ok d
        | none => Except.error CatalogError.QualityUnavailable
      else Except.error CatalogError.QualityUnavailable

/-- The stream-acquisition pipeline for one part: one descriptor
retrieval over the network, then pure selection; the second component is
the trace of network calls made. -/
def fetchAndSelect (allowFallback hasSession : Bool)
    (remoteDescs : Nat → List StreamDescriptor) (part t : Nat) :
    Except CatalogError StreamDescriptor × List NetCall :=
  (selectStream allowFallback hasSession (remoteDescs part) t,
   [NetCall.descriptorRetrieval part])

/-! ### Task Engine: byte progress
Modelled from the spec (§4.6): the engine's Rust task engine is not under
src/, so the progress translation and the pause/resume behaviour are
embedded from the specification text. -/

/-- Modelled from the spec: the progress-relevant state of one task — the
task's published byte count, the cumulative number of bytes acquired from
the network on its behalf, and whether it is paused. -/
structure ProgressState where
  bytes : Nat
  fetched : Nat
  paused : Bool
deriving DecidableEq, Repr

/-- Modelled from the spec: the progress events of one task — a progress
poll of the external process's status output reporting a cumulative byte
count, a pause request, and a resume request. -/
inductive ProgressEvent
  | report (total : Nat)
  | pauseTask
  | resumeTask
deriving DecidableEq, Repr

/-- Modelled from the spec: one progress step (§4.6). A poll report is
translated into a monotonically non-decreasing byte count, and the bytes
acquired from the network grow by exactly the published advance; while
paused the external process is terminated, so polls change nothing;
pause preserves the partial output's byte count; resume restarts the
external process at the persisted byte offset. -/
def progressStep (s : ProgressState) : ProgressEvent → ProgressState
  | ProgressEvent.report r =>
      if s.paused then s
      else { s with bytes := max s.bytes r,
                    fetched := s.fetched + (max s.bytes r - s.bytes) }
  | ProgressEvent.pauseTask => { s with paused := true }
  | ProgressEvent.resumeTask => { s with paused := false }

/-- Running a sequence of progress events. -/
def runProgress (s : ProgressState) (evs : List ProgressEvent) : ProgressState :=
  evs.foldl progressStep s

/-! ### Task Engine: cancellation
Modelled from the spec (§4.6, §5): `Cancel` terminates any active
external process and deletes all partial and final files, and the
terminal state is published only after teardown completes. -/

/-- Modelled from the spec: the task states of §4.6. -/
inductive TaskState
  | Queued
  | Downloading
  | Paused
  | Merging
  | Completed
  | Failed
  | Cancelled
deriving DecidableEq, Repr

/-- Modelled from the spec: the externally observable resources of one
task — its current state, the ids of its active external processes
(download engine or muxer), and the paths of its partial, intermediate
and final files. -/
structure TaskRes where
  state : TaskState
  procs : List Nat
  files : List String
deriving DecidableEq, Repr

/-- Modelled from the spec: the world cancellation acts on — the running
external processes, the filesystem, and the task's published state. -/
structure World where
  running : List Nat
  fs : List String
  published : TaskState
deriving DecidableEq, Repr

/-- Modelled from the spec: one externally visible action of the engine:
kill an external process, delete a file, or publish a task state. -/
inductive EngineAction
  | killProc (pid : Nat)
  | deleteFile (path : String)
  | publishState (st : TaskState)
deriving DecidableEq, Repr

/-- The effect of one engine action on the world. -/
def execAction (w : World) : EngineAction → World
  | EngineAction.killProc p =>
      { w with running := w.running.filter (fun q => !(q == p)) }
  | EngineAction.deleteFile f =>
      { w with fs := w.fs.filter (fun g => !(g == f)) }
  | EngineAction.publishState st => { w with published := st }

/-- Modelled from the spec: the action sequence of `Cancel`, invocable
from any task state: terminate every active external process of the
task, delete every file associated with it, and only then publish the
`Cancelled` state. -/
def cancelActions (t : TaskRes) : List EngineAction :=
  t.procs.map EngineAction.killProc ++ t.files.map EngineAction.deleteFile
    ++ [EngineAction.publishState TaskState.Cancelled]

/-- The cleanup part of the `Cancel` sequence, before publication. -/
def cancelCleanup (t : TaskRes) : List EngineAction :=
  t.procs.map EngineAction.killProc ++ t.files.map EngineAction.deleteFile

/-- Running a sequence of engine actions. -/
def runActions (w : World) (as : List EngineAction) : World :=
  as.foldl execAction w

/-! ### Queue Scheduler
Modelled from the spec (§4.7): the engine's Rust scheduler is not under
src/; it holds tasks in insertion order, bounds the number of
simultaneously `Downloading`/`Merging` tasks, and promotes `Queued`
tasks first-in-first-out whenever a slot frees. A `Resume` re-enters the
task through `Queued` so that the bound is respected. -/

/-- A scheduled task: its id and current state. -/
structure STask where
  id : Nat
  state : TaskState
deriving DecidableEq, Repr

/-- The scheduler: the configured concurrency bound and the task list in
insertion order. -/
structure Sched where
  bound : Nat
  tasks : List STask
deriving DecidableEq, Repr

/-- A task in `Downloading` or `Merging` occupies an active slot. -/
def isActive : TaskState → Bool
  | TaskState.Downloading => true
  | TaskState.Merging => true
  | _ => false

/-- The number of tasks occupying active slots. -/
def activeCount (ts : List STask) : Nat :=
  (ts.filter (fun t => isActive t.state)).length

/-- Whether a task is waiting in the queue. -/
def isQueued (t : STask) : Bool := t.state == TaskState.Queued

/-- Promote the first `Queued` task (FIFO) to `Downloading`. -/
def promoteFirst : List STask → List STask
  | [] => []
  | t :: ts =>
      if isQueued t then { t with state := TaskState.Downloading } :: ts
      else t :: promoteFirst ts

/-- Whether any task is waiting in the queue. -/
def hasQueued (ts : List STask) : Bool := ts.any isQueued

/-- Promote up to `n` queued tasks, FIFO. -/
def promoteUpTo : Nat → List STask → List STask
  | 0, ts => ts
  | Nat.succ n, ts =>
      if hasQueued ts then promoteUpTo n (promoteFirst ts) else ts

/-- Fill the free active slots with queued tasks, FIFO. -/
def refill (s : Sched) : Sched :=
  { s with tasks := promoteUpTo (s.bound - activeCount s.tasks) s.tasks }

/-- State change of `Pause`: process termination of an active download. -/
def pauseTrans : TaskState → Option TaskState
  | TaskState.Downloading => some TaskState.Paused
  | _ => none

/-- State change of `Resume`: the task re-enters the queue and is
promoted when a slot is free. -/
def resumeTrans : TaskState → Option TaskState
  | TaskState.Paused => some TaskState.Queued
  | _ => none

/-- State change of `Cancel`: any non-terminal task becomes `Cancelled`. -/
def cancelTrans : TaskState → Option TaskState
  | TaskState.Completed => none
  | TaskState.Failed => none
  | TaskState.Cancelled => none
  | _ => some TaskState.Cancelled

/-- State change of `Retry`: permitted only on `Failed` tasks, which
re-enter `Queued`. -/
def retryTrans : TaskState → Option TaskState
  | TaskState.Failed => some TaskState.Queued
  | _ => none

/-- State change of task completion: an active task finishes. -/
def completeTrans : TaskState → Option TaskState
  | TaskState.Downloading => some TaskState.Completed
  | TaskState.Merging => some TaskState.Completed
  | _ => none

/-- Apply a state change to the task with the given id. -/
def setTaskState (ts : List STask) (i : Nat)
    (f : TaskState → Option TaskState) : List STask :=
  ts.map (fun t =>
    if t.id == i then
      match f t.state with
      | some st => { t with state := st }
      | none => t
    else t)

/-- The scheduler operations of §4.7 driven by the user or by task
completion. -/
inductive SchedOp
  | enqueue (id : Nat)
  | pause (id : Nat)
  | resume (id : Nat)
  | cancel (id : Nat)
  | retry (id : Nat)
  | complete (id : Nat)
deriving DecidableEq, Repr

/-- One scheduler operation: the task set is updated and the freed slots
are refilled FIFO. -/
def applyOp (s : Sched) : SchedOp → Sched
  | SchedOp.enqueue i =>
      refill { s with tasks := s.tasks ++ [⟨i, TaskState.Queued⟩] }
  | SchedOp.pause i =>
      refill { s with tasks := setTaskState s.tasks i pauseTrans }
  | SchedOp.resume i =>
      refill { s with tasks := setTaskState s.tasks i resumeTrans }
  | SchedOp.cancel i =>
      refill { s with tasks := setTaskState s.tasks i cancelTrans }
  | SchedOp.retry i =>
      refill { s with tasks := setTaskState s.tasks i retryTrans }
  | SchedOp.complete i =>
      refill { s with tasks := setTaskState s.tasks i completeTrans }

/-- Run a sequence of scheduler operations from the empty scheduler with
the given concurrency bound. -/
def runSched (n : Nat) (ops : List SchedOp) : Sched :=
  ops.foldl applyOp { bound := n, tasks := [] }

/-! ### Helper lemmas -/

/-- Looking a key up after removing it finds nothing. -/
theorem getItem_removeItem (s : Store) (k : String) :
    getItem (removeItem s k) k = none := by
  induction s with
  | nil => rfl
  | cons a t ih =>
      by_cases h : a.1 == k
      · rw [show removeItem (a :: t) k = removeItem t k from by
          simp [removeItem, List.filter, h]]
        exact ih
      · simp only [removeItem, List.filter] at ih ⊢
        simp only [h, Bool.not_false]
        simp only [getItem, List.find?, h] at ih ⊢
        exact ih

/-- Looking a key up after setting it yields the new value. -/
theorem getItem_setItem (s : Store) (k v : String) :
    getItem (setItem s k v) k = some v := by
  simp [getItem, setItem, List.find?]

/-- After any single `setTheme` persistence step, the stored value under
the key is never the string "system". -/
theorem setThemePersist_not_system (key : String) (s : Store) (t : Theme) :
    getItem (setThemePersist key s t) key ≠ some "system" := by
  cases t <;>
    simp [setThemePersist, getItem_setItem, getItem_removeItem, themeStr]

/-- After any nonempty sequence of `setTheme` persistence steps, the
stored value under the key is never the string "system". -/
theorem foldl_setThemePersist_not_system (key : String) :
    ∀ (ts : List Theme) (s : Store) (t : Theme),
      getItem (ts.foldl (setThemePersist key) (setThemePersist key s t)) key
        ≠ some "system" := by
  intro ts
  induction ts with
  | nil => intro s t; exact setThemePersist_not_system key s t
  | cons t' ts' ih =>
      intro s t
      simpa [List.foldl] using ih (setThemePersist key s t) t'

/-- A poll delivered in a terminal state leaves the machine unchanged. -/
theorem applyPoll_terminal_fix (m : LoginMachine) (r : PollResp)
    (h : isTerminal m.state = true) : applyPoll m r = m := by
  cases hs : m.state <;> simp [isTerminal, hs] at h <;> simp [applyPoll, hs]

/-- Each login step preserves the property that a machine in a terminal
state has its poll timer stopped. -/
theorem loginStep_stops (m : LoginMachine) (e : LoginEvent)
    (h : isTerminal m.state = true → m.pollingActive = false) :
    isTerminal (loginStep m e).state = true →
      (loginStep m e).pollingActive = false := by
  cases e with
  | start =>
      cases hs : m.state
      all_goals simp only [loginStep, hs]
      · simp [isTerminal]
      all_goals intro ht
      all_goals exact h (by rw [hs]; exact ht)
  | cancel => intro _; simp [loginStep]
  | poll r =>
      simp only [loginStep]
      cases hs : m.state
      case Idle => simp [applyPoll, hs, isTerminal]
      case Confirmed =>
          intro _; simp only [applyPoll, hs]; exact h (by rw [hs]; rfl)
      case Expired =>
          intro _; simp only [applyPoll, hs]; exact h (by rw [hs]; rfl)
      case QrIssued =>
          cases r <;> simp [applyPoll, hs, isTerminal]
      case Scanned =>
          cases r <;> simp [applyPoll, hs, isTerminal]

/-- Folding login steps from any machine with a stopped-when-terminal
poll timer keeps the poll timer stopped in terminal states. -/
theorem foldl_login_stops (evs : List LoginEvent) :
    ∀ m : LoginMachine, (isTerminal m.state = true → m.pollingActive = false) →
      isTerminal (evs.foldl loginStep m).state = true →
        (evs.foldl loginStep m).pollingActive = false := by
  induction evs with
  | nil => intro m h; exact h
  | cons e t ih => intro m h; exact ih _ (loginStep_stops m e h)

/-- Every character's code point is below 1114112. -/
theorem charToNat_lt (c : Char) : c.toNat < 1114112 := by
  have hdef : c.toNat = c.val.toNat := rfl
  have h := c.valid
  rcases h with h | h
  · have h1 : c.val.toNat < 55296 := h
    omega
  · rcases h with ⟨_, h2⟩
    have h3 : c.val.toNat < 1114112 := h2
    omega

/-- The bijective-numeral value determines the character list. -/
theorem charListVal_inj :
    ∀ l1 l2 : List Char, charListVal l1 = charListVal l2 → l1 = l2 := by
  intro l1
  induction l1 with
  | nil =>
      intro l2 h
      cases l2 with
      | nil => rfl
      | cons d ds =>
          exfalso
          simp only [charListVal] at h
          omega
  | cons c cs ih =>
      intro l2 h
      cases l2 with
      | nil =>
          exfalso
          simp only [charListVal] at h
          omega
      | cons d ds =>
          simp only [charListVal] at h
          have hc := charToNat_lt c
          have hd := charToNat_lt d
          have h1 : c.toNat = d.toNat := by omega
          have h2 : charListVal cs = charListVal ds := by omega
          have hcd : c = d := Char.eq_of_val_eq (UInt32.ext h1)
          rw [hcd, ih ds h2]

/-- The digest determines the hashed string. -/
theorem hashString_inj (s1 s2 : String) (h : hashString s1 = hashString s2) :
    s1 = s2 := by
  cases s1 with
  | mk d1 =>
      cases s2 with
      | mk d2 =>
          exact congrArg String.mk (charListVal_inj d1 d2 h)

/-- A list in which no tier lies at or below the request has no best
fallback descriptor. -/
theorem bestAtOrBelow_none (t : Nat) :
    ∀ l : List StreamDescriptor, (∀ d ∈ l, ¬ d.tier ≤ t) →
      bestAtOrBelow t l = none := by
  intro l
  induction l with
  | nil => intro _; rfl
  | cons d ds ih =>
      intro h
      have hd : ¬ d.tier ≤ t := h d (by simp)
      have hds := ih (fun x hx => h x (by simp [hx]))
      simp [bestAtOrBelow, hd, hds]

/-- One progress step never decreases the byte count. -/
theorem progressStep_mono (s : ProgressState) (e : ProgressEvent) :
    s.bytes ≤ (progressStep s e).bytes := by
  cases e with
  | report r =>
      by_cases h : s.paused <;> simp [progressStep, h, Nat.le_max_left]
  | pauseTask => simp [progressStep]
  | resumeTask => simp [progressStep]

/-- The byte count is monotone along any event sequence. -/
theorem runProgress_mono (evs : List ProgressEvent) :
    ∀ s : ProgressState, s.bytes ≤ (runProgress s evs).bytes := by
  induction evs with
  | nil => intro s; exact Nat.le_refl _
  | cons e t ih =>
      intro s
      exact Nat.le_trans (progressStep_mono s e) (ih (progressStep s e))

/-- One progress step acquires from the network exactly the bytes by
which the published count advances. -/
theorem progressStep_account (s : ProgressState) (e : ProgressEvent) :
    (progressStep s e).fetched + s.bytes = (progressStep s e).bytes + s.fetched := by
  cases e with
  | report r =>
      by_cases h : s.paused
      · simp only [progressStep, h, if_true]
        omega
      · simp only [progressStep, h, if_neg, Bool.false_eq_true, if_false]
        have := Nat.le_max_left s.bytes r
        omega
  | pauseTask => simp only [progressStep]; omega
  | resumeTask => simp only [progressStep]; omega

/-- Along any event sequence the bytes acquired from the network equal
the advance of the published byte count: no byte is acquired twice. -/
theorem runProgress_account (evs : List ProgressEvent) :
    ∀ s : ProgressState,
      (runProgress s evs).fetched + s.bytes
        = (runProgress s evs).bytes + s.fetched := by
  induction evs with
  | nil => intro s; simp only [runProgress, List.foldl]; omega
  | cons e t ih =>
      intro s
      have h1 := progressStep_account s e
      have h2 := ih (progressStep s e)
      have hm := progressStep_mono s e
      have hm2 := runProgress_mono t (progressStep s e)
      simp only [runProgress, List.foldl] at h2 ⊢
      omega

/-- Pausing and immediately resuming a running task restores its exact
progress state. -/
theorem pause_resume_id (s : ProgressState) (h : s.paused = false) :
    progressStep (progressStep s ProgressEvent.pauseTask)
      ProgressEvent.resumeTask = s := by
  cases s with
  | mk b f p => simp at h; simp [progressStep, h]

/-- A process killed during a kill sequence is not running afterwards:
membership after the kills implies membership before, outside the kill
list. -/
theorem mem_running_after_kills :
    ∀ (ps : List Nat) (w : World) (q : Nat),
      q ∈ (runActions w (ps.map EngineAction.killProc)).running →
        q ∈ w.running ∧ q ∉ ps := by
  intro ps
  induction ps with
  | nil => intro w q h; exact ⟨h, by simp⟩
  | cons p pt ih =>
      intro w q h
      simp only [List.map, runActions, List.foldl] at h
      have := ih (execAction w (EngineAction.killProc p)) q h
      rcases this with ⟨hmem, hnot⟩
      simp only [execAction, List.mem_filter, Bool.not_eq_true',
        beq_eq_false_iff_ne] at hmem
      exact ⟨hmem.1, by simp [hmem.2, hnot]⟩

/-- Deleting files leaves the running processes unchanged. -/
theorem running_after_deletes :
    ∀ (fsl : List String) (w : World),
      (runActions w (fsl.map EngineAction.deleteFile)).running = w.running := by
  intro fsl
  induction fsl with
  | nil => intro w; rfl
  | cons f ft ih =>
      intro w
      simp only [List.map, runActions, List.foldl] at ih ⊢
      rw [ih]
      rfl

/-- A file deleted during a delete sequence is not on the filesystem
afterwards. -/
theorem mem_fs_after_deletes :
    ∀ (fsl : List String) (w : World) (g : String),
      g ∈ (runActions w (fsl.map EngineAction.deleteFile)).fs →
        g ∈ w.fs ∧ g ∉ fsl := by
  intro fsl
  induction fsl with
  | nil => intro w g h; exact ⟨h, by simp⟩
  | cons f ft ih =>
      intro w g h
      simp only [List.map, runActions, List.foldl] at h
      have := ih (execAction w (EngineAction.deleteFile f)) g h
      rcases this with ⟨hmem, hnot⟩
      simp only [execAction, List.mem_filter, Bool.not_eq_true',
        beq_eq_false_iff_ne] at hmem
      exact ⟨hmem.1, by simp [hmem.2, hnot]⟩

/-- The active count of a cons is the head's slot contribution plus the
tail's. -/
theorem activeCount_cons (t : STask) (ts : List STask) :
    activeCount (t :: ts)
      = (if isActive t.state then 1 else 0) + activeCount ts := by
  by_cases h : isActive t.state
  · simp [activeCount, List.filter_cons, h]
    omega
  · simp [activeCount, List.filter_cons, h]

/-- Promoting one queued task adds at most one active slot. -/
theorem activeCount_promoteFirst (ts : List STask) :
    activeCount (promoteFirst ts) ≤ activeCount ts + 1 := by
  induction ts with
  | nil => simp [promoteFirst, activeCount]
  | cons t tl ih =>
      cases h : isQueued t with
      | true =>
          simp only [promoteFirst, h, if_true]
          rw [activeCount_cons, activeCount_cons]
          have hq : t.state = TaskState.Queued := by
            simpa [isQueued] using h
          simp [hq, isActive]
          omega
      | false =>
          simp only [promoteFirst, h, Bool.false_eq_true, if_false]
          rw [activeCount_cons, activeCount_cons]
          omega

/-- Promoting up to `n` tasks adds at most `n` active slots. -/
theorem activeCount_promoteUpTo (n : Nat) :
    ∀ ts : List STask,
      activeCount (promoteUpTo n ts) ≤ activeCount ts + n := by
  induction n with
  | zero => intro ts; simp [promoteUpTo]
  | succ k ih =>
      intro ts
      cases h : hasQueued ts with
      | true =>
          simp only [promoteUpTo, h, if_true]
          have h1 := ih (promoteFirst ts)
          have h2 := activeCount_promoteFirst ts
          omega
      | false =>
          simp only [promoteUpTo, h, Bool.false_eq_true, if_false]
          omega

/-- Refilling a scheduler within its bound keeps it within its bound. -/
theorem activeCount_refill (s : Sched) (h : activeCount s.tasks ≤ s.bound) :
    activeCount (refill s).tasks ≤ s.bound := by
  simp only [refill]
  have := activeCount_promoteUpTo (s.bound - activeCount s.tasks) s.tasks
  omega

/-- A state change that never turns an inactive task active cannot
increase the active count. -/
theorem activeCount_setTaskState (i : Nat)
    (f : TaskState → Option TaskState)
    (hf : ∀ st st', f st = some st' → isActive st' = true → isActive st = true) :
    ∀ ts : List STask, activeCount (setTaskState ts i f) ≤ activeCount ts := by
  intro ts
  induction ts with
  | nil => simp [setTaskState, activeCount]
  | cons t tl ih =>
      simp only [setTaskState, List.map_cons] at ih ⊢
      rw [activeCount_cons, activeCount_cons]
      have hhead :
          (if isActive (if t.id == i then
              match f t.state with
              | some st => { t with state := st }
              | none => t
            else t).state then 1 else 0)
          ≤ (if isActive t.state then 1 else 0) := by
        cases hid : (t.id == i) with
        | true =>
            simp only [hid, if_true]
            cases hfs : f t.state with
            | none => exact Nat.le_refl _
            | some st' =>
                cases ha : isActive st' with
                | true =>
                    have := hf t.state st' hfs ha
                    simp [ha, this]
                | false =>
                    simp only [ha, Bool.false_eq_true, if_false]
                    omega
        | false => simp [hid]
      omega

/-- Appending a freshly enqueued `Queued` task leaves the active count
unchanged. -/
theorem activeCount_append_queued (ts : List STask) (i : Nat) :
    activeCount (ts ++ [⟨i, TaskState.Queued⟩]) = activeCount ts := by
  simp [activeCount, List.filter_append, List.filter_cons, isActive]

/-- The `Pause` state change never activates a task. -/
theorem pauseTrans_ok : ∀ st st' : TaskState,
    pauseTrans st = some st' → isActive st' = true → isActive st = true := by
  intro st st' hs ha
  cases st <;> cases st' <;> simp_all [pauseTrans, isActive]

/-- The `Resume` state change never activates a task directly. -/
theorem resumeTrans_ok : ∀ st st' : TaskState,
    resumeTrans st = some st' → isActive st' = true → isActive st = true := by
  intro st st' hs ha
  cases st <;> cases st' <;> simp_all [resumeTrans, isActive]

/-- The `Cancel` state change never activates a task. -/
theorem cancelTrans_ok : ∀ st st' : TaskState,
    cancelTrans st = some st' → isActive st' = true → isActive st = true := by
  intro st st' hs ha
  cases st <;> cases st' <;> simp_all [cancelTrans, isActive]

/-- The `Retry` state change never activates a task directly. -/
theorem retryTrans_ok : ∀ st st' : TaskState,
    retryTrans st = some st' → isActive st' = true → isActive st = true := by
  intro st st' hs ha
  cases st <;> cases st' <;> simp_all [retryTrans, isActive]

/-- Task completion never activates a task. -/
theorem completeTrans_ok : ∀ st st' : TaskState,
    completeTrans st = some st' → isActive st' = true → isActive st = true := by
  intro st st' hs ha
  cases st <;> cases st' <;> simp_all [completeTrans, isActive]

/-- One scheduler operation keeps the active count within the bound. -/
theorem applyOp_invariant (s : Sched) (op : SchedOp)
    (h : activeCount s.tasks ≤ s.bound) :
    activeCount (applyOp s op).tasks ≤ (applyOp s op).bound := by
  have hb : (applyOp s op).bound = s.bound := by
    cases op <;> simp [applyOp, refill]
  rw [hb]
  cases op with
  | enqueue i =>
      exact activeCount_refill _ (by rw [activeCount_append_queued]; exact h)
  | pause i =>
      exact activeCount_refill _
        (Nat.le_trans (activeCount_setTaskState i pauseTrans pauseTrans_ok s.tasks) h)
  | resume i =>
      exact activeCount_refill _
        (Nat.le_trans (activeCount_setTaskState i resumeTrans resumeTrans_ok s.tasks) h)
  | cancel i =>
      exact activeCount_refill _
        (Nat.le_trans (activeCount_setTaskState i cancelTrans cancelTrans_ok s.tasks) h)
  | retry i =>
      exact activeCount_refill _
        (Nat.le_trans (activeCount_setTaskState i retryTrans retryTrans_ok s.tasks) h)
  | complete i =>
      exact activeCount_refill _
        (Nat.le_trans (activeCount_setTaskState i completeTrans completeTrans_ok s.tasks) h)

/-- The scheduler invariant: along every operation sequence the bound is
preserved and the active count stays within it. -/
theorem runSched_invariant (n : Nat) (ops : List SchedOp) :
    (runSched n ops).bound = n ∧ activeCount (runSched n ops).tasks ≤ n := by
  suffices h : ∀ s : Sched, s.bound = n → activeCount s.tasks ≤ n →
      (ops.foldl applyOp s).bound = n
        ∧ activeCount (ops.foldl applyOp s).tasks ≤ n by
    exact h ⟨n, []⟩ rfl (by simp [activeCount])
  induction ops with
  | nil => intro s h1 h2; exact ⟨h1, h2⟩
  | cons op t ih =>
      intro s h1 h2
      apply ih
      · rw [show (applyOp s op).bound = s.bound from by
          cases op <;> simp [applyOp, refill]]
        exact h1
      · have h3 := applyOp_invariant s op (by omega)
        rw [show (applyOp s op).bound = s.bound from by
          cases op <;> simp [applyOp, refill]] at h3
        omega

/-! ### Theorems for the claims -/

/-- C8: in the homepage `videoQualities` list, `needLogin` is true for
exactly the six tiers above 480P and false for exactly 480P and 360P; the
list is ordered strictly from highest to lowest tier; and `needLogin` is
antitone in list position (no login-gated tier appears after a login-free
one). -/
theorem videoQualities_needLogin_spec :
    (videoQualities.map (fun e => e.needLogin))
      = [true, true, true, true, true, true, false, false]
    ∧ (videoQualities.map (fun e => e.quality))
      = ["8K", "4K", "1080P 60帧", "1080P+", "1080P", "720P", "480P", "360P"]
    ∧ (∀ e ∈ videoQualities,
        e.needLogin = decide (qualityRank "480P" < qualityRank e.quality))
    ∧ List.Pairwise (fun a b => qualityRank b.quality < qualityRank a.quality)
        videoQualities
    ∧ List.Pairwise (fun a b => b.needLogin = true → a.needLogin = true)
        videoQualities := by
  refine ⟨rfl, rfl, ?_, ?_, ?_⟩ <;> decide

/-- C9: `setTheme` writes "light"/"dark" under the storage key and removes
the entry for "system"; hence the persisted value is never "system"; and
an absent stored value falls back to the default theme at initialisation. -/
theorem setTheme_persistence_spec (key d : String) (s : Store) :
    (∀ t : Theme, t ≠ Theme.system →
        getItem (setThemePersist key s t) key = some (themeStr t))
    ∧ getItem (setThemePersist key s Theme.system) key = none
    ∧ (∀ (t : Theme) (ts : List Theme),
        getItem (ts.foldl (setThemePersist key) (setThemePersist key s t)) key
          ≠ some "system")
    ∧ (getItem s key = none → initTheme key d s = d) := by
  refine ⟨?_, ?_, ?_, ?_⟩
  · intro t ht
    simp [setThemePersist, ht, getItem_setItem]
  · simp [setThemePersist, getItem_removeItem]
  · intro t ts
    exact foldl_setThemePersist_not_system key ts s t
  · intro h
    simp [initTheme, h]

/-- Witness for C9 at a concrete store and key. -/
theorem setTheme_persistence_spec_witness :
    getItem (setThemePersist "bilibili-down-theme" [] Theme.dark)
        "bilibili-down-theme" = some (themeStr Theme.dark)
    ∧ initTheme "bilibili-down-theme" "system" [] = "system" := by
  refine ⟨?_, ?_⟩
  · exact (setTheme_persistence_spec "bilibili-down-theme" "system" []).1
      Theme.dark (by decide)
  · exact (setTheme_persistence_spec "bilibili-down-theme" "system" []).2.2.2
      (by rfl)

/-- C10: `useTheme` never throws: the context is created with the
non-undefined `initialState`, so the resolved context value is always
defined and the error branch is unreachable, whether or not a provider is
present. -/
theorem useTheme_never_throws (pv : Option ThemeCtxState) :
    useTheme (readThemeContext pv) = Except.ok (pv.getD initialState) := by
  cases pv <;> rfl

/-- C2: the QR-login states `Confirmed` and `Expired` are absorbing — a
poll delivered in either leaves the machine unchanged; on every reachable
machine, being in a terminal state implies the poll timer is stopped; and
explicit cancellation stops the poll timer. -/
theorem qr_login_terminal_spec :
    (∀ (m : LoginMachine) (r : PollResp),
        isTerminal m.state = true → applyPoll m r = m)
    ∧ (∀ evs : List LoginEvent,
        isTerminal (runLogin evs).state = true →
          (runLogin evs).pollingActive = false)
    ∧ (∀ m : LoginMachine,
        (loginStep m LoginEvent.cancel).pollingActive = false) := by
  refine ⟨applyPoll_terminal_fix, ?_, ?_⟩
  · intro evs
    exact foldl_login_stops evs loginInit (by intro h; simp [loginInit] at h ⊢)
  · intro m
    simp [loginStep]

/-- Witness for C2: a confirmed machine absorbs an `expired` poll, and the
concrete run issuing a QR code and receiving a confirmation ends with the
poll timer stopped. -/
theorem qr_login_terminal_spec_witness :
    applyPoll ⟨QrState.Confirmed, false, some ⟨"cred", 100⟩⟩ PollResp.expired
        = ⟨QrState.Confirmed, false, some ⟨"cred", 100⟩⟩
    ∧ (runLogin [LoginEvent.start,
          LoginEvent.poll (PollResp.confirmed "cred" 100)]).pollingActive
        = false := by
  refine ⟨?_, ?_⟩
  · exact qr_login_terminal_spec.1
      ⟨QrState.Confirmed, false, some ⟨"cred", 100⟩⟩ PollResp.expired
      (by decide)
  · exact qr_login_terminal_spec.2.1
      [LoginEvent.start, LoginEvent.poll (PollResp.confirmed "cred" 100)]
      (by decide)

/-- C5: the three accepted input forms referencing the same video — the
bare canonical identifier, a full URL containing it, and a short redirect
URL resolving to that URL — all resolve to the identical canonical
identifier. -/
theorem resolver_canonical_spec (redirect : String → Option String)
    (id url shortUrl : String)
    (hid : isCanonicalId id = true)
    (hurl1 : isCanonicalId url = false)
    (hurl2 : extractId url = some id)
    (hs1 : isCanonicalId shortUrl = false)
    (hs2 : extractId shortUrl = none)
    (hs3 : isShortLink shortUrl = true)
    (hred : redirect shortUrl = some url) :
    resolve redirect id = Except.ok id
    ∧ resolve redirect url = Except.ok id
    ∧ resolve redirect shortUrl = Except.ok id := by
  refine ⟨?_, ?_, ?_⟩
  · simp [resolve, resolveAux, hid]
  · simp [resolve, resolveAux, hurl1, hurl2]
  · simp [resolve, resolveAux, hs1, hs2, hs3, hred, hurl1, hurl2]

/-- Witness for C5 at the concrete BV code `BV1xx411c7mD`, its full URL,
and a short link redirecting to that URL. -/
theorem resolver_canonical_spec_witness :
    resolve demoRedirect "BV1xx411c7mD" = Except.ok "BV1xx411c7mD"
    ∧ resolve demoRedirect "https://www.bilibili.com/video/BV1xx411c7mD"
        = Except.ok "BV1xx411c7mD"
    ∧ resolve demoRedirect "https://b23.tv/abc123"
        = Except.ok "BV1xx411c7mD" :=
  resolver_canonical_spec demoRedirect
    "BV1xx411c7mD" "https://www.bilibili.com/video/BV1xx411c7mD"
    "https://b23.tv/abc123"
    (by decide) (by decide) (by decide) (by decide) (by decide) (by decide)
    (by decide)

/-- C3 (amended): the signature is a pure function of the triple —
identical triples always give identical signatures — and two signing runs
produce the same signature exactly when their sanitised canonical strings
(sorted sanitised parameters, appended timestamp, mixed key material)
coincide; a one-component change erased by sanitisation therefore leaves
the signature unchanged. -/
theorem wbi_signature_spec (p1 p2 : List (String × String))
    (k1 k2 : MixinKey) (t1 t2 : Nat) :
    wbiSign p1 k1 t1 = wbiSign p2 k2 t2 ↔
      canonicalQuery p1 k1 t1 = canonicalQuery p2 k2 t2 := by
  constructor
  · intro h
    exact hashString_inj _ _ h
  · intro h
    simp only [wbiSign, h]

/-- Counterexample for C3 as stated: two triples that differ in exactly
one component (the parameter list, by an apostrophe-free stripped
character) produce the identical signature, because sanitisation erases
the difference. -/
theorem wbi_one_change_collision :
    (("a", "x!") : String × String) ≠ ("a", "x")
    ∧ wbiSign [("a", "x!")] ⟨"k1", "k2"⟩ 1700000000
        = wbiSign [("a", "x")] ⟨"k1", "k2"⟩ 1700000000 := by
  refine ⟨by decide, ?_⟩
  rfl

/-- C4 (amended): for a requested tier whose descriptors all require a
session, with no valid session present, selection fails with
`QualityUnavailable` provided the caller's policy disallows fallback or
every descriptor at or below the request is also login-gated; and the
pipeline's only network call is the descriptor retrieval itself. -/
theorem quality_unavailable_spec (allowFallback hasSession : Bool)
    (remoteDescs : Nat → List StreamDescriptor) (part t : Nat)
    (hreq : ∀ d ∈ remoteDescs part, d.tier = t → d.requiresSession = true)
    (hs : hasSession = false)
    (hpol : allowFallback = false
      ∨ ∀ d ∈ remoteDescs part, d.tier ≤ t → d.requiresSession = true) :
    fetchAndSelect allowFallback hasSession remoteDescs part t
      = (Except.error CatalogError.QualityUnavailable,
         [NetCall.descriptorRetrieval part]) := by
  subst hs
  have hfind : ((remoteDescs part).filter (sessionOk false)).find?
      (fun d => d.tier == t) = none := by
    rw [List.find?_eq_none]
    intro x hx
    rcases List.mem_filter.mp hx with ⟨hmem, hok⟩
    simp only [sessionOk, Bool.or_false, Bool.not_eq_true'] at hok
    intro hxt
    have : x.tier = t := by simpa using hxt
    have := hreq x hmem this
    rw [this] at hok
    exact Bool.noConfusion hok
  rcases hpol with hpol | hpol
  · subst hpol
    simp [fetchAndSelect, selectStream, hfind]
  · have hbest : bestAtOrBelow t ((remoteDescs part).filter (sessionOk false))
        = none := by
      apply bestAtOrBelow_none
      intro d hd
      rcases List.mem_filter.mp hd with ⟨hmem, hok⟩
      simp only [sessionOk, Bool.or_false, Bool.not_eq_true'] at hok
      intro hle
      have := hpol d hmem hle
      rw [this] at hok
      exact Bool.noConfusion hok
    cases allowFallback <;>
      simp [fetchAndSelect, selectStream, hfind, hbest]

/-- Witness for C4 at a single login-gated descriptor with the
no-fallback policy and no session. -/
theorem quality_unavailable_spec_witness :
    fetchAndSelect false false
        (fun _ => [⟨5, "avc", ["u"], true, 800⟩]) 1 5
      = (Except.error CatalogError.QualityUnavailable,
         [NetCall.descriptorRetrieval 1]) :=
  quality_unavailable_spec false false
    (fun _ => [⟨5, "avc", ["u"], true, 800⟩]) 1 5
    (by intro d hd; simp at hd; subst hd; intro _; rfl)
    rfl (Or.inl rfl)

/-- Counterexample for C4 as stated: under the fallback-accepting policy,
a login-gated requested tier with no session does not fail when a
session-free lower tier exists — selection returns the lower tier, not
`QualityUnavailable`. -/
theorem quality_unavailable_counterexample :
    (([⟨5, "avc", ["u"], true, 800⟩, ⟨2, "avc", ["v"], false, 300⟩]
        : List StreamDescriptor).find? (fun d => d.tier == 5)).map
          (fun d => d.requiresSession) = some true
    ∧ selectStream true false
        [⟨5, "avc", ["u"], true, 800⟩, ⟨2, "avc", ["v"], false, 300⟩] 5
        = Except.ok ⟨2, "avc", ["v"], false, 300⟩
    ∧ selectStream true false
        [⟨5, "avc", ["u"], true, 800⟩, ⟨2, "avc", ["v"], false, 300⟩] 5
        ≠ Except.error CatalogError.QualityUnavailable := by
  refine ⟨rfl, rfl, ?_⟩
  intro h
  rw [show selectStream true false
      [⟨5, "avc", ["u"], true, 800⟩, ⟨2, "avc", ["v"], false, 300⟩] 5
      = Except.ok ⟨2, "avc", ["v"], false, 300⟩ from rfl] at h
  exact Except.noConfusion h

/-- C6: the per-task byte count is monotonically non-decreasing along
every event sequence; pausing a running task and resuming it continues
from the persisted progress — the final state equals that of the
uninterrupted run — and the bytes acquired from the network equal the
advance of the byte count, so no completed byte is re-acquired. -/
theorem progress_monotone_spec :
    (∀ (evs : List ProgressEvent) (s : ProgressState),
        s.bytes ≤ (runProgress s evs).bytes)
    ∧ (∀ (evs : List ProgressEvent) (s : ProgressState),
        (runProgress s evs).fetched + s.bytes
          = (runProgress s evs).bytes + s.fetched)
    ∧ (∀ (evs : List ProgressEvent) (s : ProgressState), s.paused = false →
        runProgress s (ProgressEvent.pauseTask :: ProgressEvent.resumeTask :: evs)
          = runProgress s evs) := by
  refine ⟨runProgress_mono, runProgress_account, ?_⟩
  intro evs s h
  simp only [runProgress, List.foldl]
  rw [pause_resume_id s h]

/-- Witness for C6: a concrete paused-and-resumed run ends with the same
state as the uninterrupted run from the persisted progress. -/
theorem progress_monotone_spec_witness :
    runProgress ⟨100, 100, false⟩
        [ProgressEvent.pauseTask, ProgressEvent.resumeTask,
         ProgressEvent.report 250]
      = runProgress ⟨100, 100, false⟩ [ProgressEvent.report 250] :=
  progress_monotone_spec.2.2 [ProgressEvent.report 250] ⟨100, 100, false⟩ rfl

/-- C7: cancelling a task — from any state, its `state` field being
unconstrained — leaves none of its external processes running and none of
its files on the filesystem already at the end of the cleanup phase, and
the full cancel sequence equals that cleanup followed only by publishing
`Cancelled`; so both postconditions hold before the state is published. -/
theorem cancel_cleanup_spec (w : World) (t : TaskRes) :
    (∀ p ∈ t.procs, p ∉ (runActions w (cancelCleanup t)).running)
    ∧ (∀ f ∈ t.files, f ∉ (runActions w (cancelCleanup t)).fs)
    ∧ runActions w (cancelActions t)
        = { runActions w (cancelCleanup t) with
            published := TaskState.Cancelled } := by
  have hsplit : ∀ v : World, runActions v (cancelCleanup t)
      = runActions (runActions v (t.procs.map EngineAction.killProc))
          (t.files.map EngineAction.deleteFile) := by
    intro v
    simp [cancelCleanup, runActions, List.foldl_append]
  refine ⟨?_, ?_, ?_⟩
  · intro p hp hmem
    rw [hsplit] at hmem
    rw [show ∀ v : World, (runActions v
        (t.files.map EngineAction.deleteFile)).running = v.running from
      fun v => running_after_deletes t.files v] at hmem
    have := mem_running_after_kills t.procs w p hmem
    exact this.2 hp
  · intro f hf hmem
    rw [hsplit] at hmem
    have := mem_fs_after_deletes t.files
      (runActions w (t.procs.map EngineAction.killProc)) f hmem
    exact this.2 hf
  · have : cancelActions t = cancelCleanup t
        ++ [EngineAction.publishState TaskState.Cancelled] := by
      simp [cancelActions, cancelCleanup]
    rw [this, runActions, List.foldl_append]
    rfl

/-- Witness for C7: cancelling a concrete `Merging` task kills its muxer
process, and the full sequence is the cleanup followed by publishing
`Cancelled`. -/
theorem cancel_cleanup_spec_witness :
    7 ∉ (runActions ⟨[7, 9], ["a.m4s", "out.mp4"], TaskState.Merging⟩
          (cancelCleanup ⟨TaskState.Merging, [7], ["a.m4s"]⟩)).running
    ∧ runActions ⟨[7, 9], ["a.m4s", "out.mp4"], TaskState.Merging⟩
          (cancelActions ⟨TaskState.Merging, [7], ["a.m4s"]⟩)
        = { runActions ⟨[7, 9], ["a.m4s", "out.mp4"], TaskState.Merging⟩
              (cancelCleanup ⟨TaskState.Merging, [7], ["a.m4s"]⟩) with
            published := TaskState.Cancelled } :=
  ⟨(cancel_cleanup_spec ⟨[7, 9], ["a.m4s", "out.mp4"], TaskState.Merging⟩
      ⟨TaskState.Merging, [7], ["a.m4s"]⟩).1 7 (by decide),
   (cancel_cleanup_spec ⟨[7, 9], ["a.m4s", "out.mp4"], TaskState.Merging⟩
      ⟨TaskState.Merging, [7], ["a.m4s"]⟩).2.2⟩

/-- C1: for every concurrency bound and every operation sequence, the
number of tasks simultaneously in `Downloading` or `Merging` never
exceeds the bound; enqueuing 5 tasks under bound 2 puts exactly the first
2 into `Downloading` and leaves 3 `Queued`, and completing one active
task promotes exactly one `Queued` task. -/
theorem queue_bound_spec :
    (∀ (n : Nat) (ops : List SchedOp),
        activeCount (runSched n ops).tasks ≤ n)
    ∧ ((runSched 2 [SchedOp.enqueue 0, SchedOp.enqueue 1, SchedOp.enqueue 2,
          SchedOp.enqueue 3, SchedOp.enqueue 4]).tasks.map (fun t => t.state)
        = [TaskState.Downloading, TaskState.Downloading, TaskState.Queued,
           TaskState.Queued, TaskState.Queued])
    ∧ ((runSched 2 [SchedOp.enqueue 0, SchedOp.enqueue 1, SchedOp.enqueue 2,
          SchedOp.enqueue 3, SchedOp.enqueue 4,
          SchedOp.complete 0]).tasks.map (fun t => t.state)
        = [TaskState.Completed, TaskState.Downloading, TaskState.Downloading,
           TaskState.Queued, TaskState.Queued]) := by
  refine ⟨fun n ops => (runSched_invariant n ops).2, ?_, ?_⟩ <;> rfl

end BiliDown
